import Mathlib

/-!
Verification of the scoring and classification core of a 57-item
occupational stress questionnaire application (app.py and data.py).

The pure core of the app consists of:
  - the answer option score tables SCORE_MAP and SCORE_MAP_REVERSE,
  - calculate_scores, computing per-item raw scores from answers,
  - calculate_scale_scores, computing per-scale sums using the scales
    table of data.py,
  - display_high_stress_warning, a two-rule threshold classifier,
  - load_questions_from_csv, the catalog loader with a FileNotFoundError
    fallback to an empty list.

Python dicts are embedded as association lists over String keys with
first-match lookup and replace-or-append assignment; the dicts built by
the code never hold a key twice, so this agrees with insertion-ordered
Python dicts. A Python dict subscript that can raise KeyError is embedded
as an Option result, none meaning the exception. The questions catalog is
read at startup from questions.csv, a data file that is not one of the two
source files; functions that consult the catalog therefore take it as an
explicit parameter.
-/

/-- Association list lookup, first match wins: Python dict lookup d.get(k). -/
def lookup? {α : Type} : List (String × α) → String → Option α
  | [], _ => none
  | p :: rest, k => if p.1 = k then some p.2 else lookup? rest k

/-- Python d.get(k, d0): lookup with a default value. -/
def lookupD {α : Type} (m : List (String × α)) (k : String) (d : α) : α :=
  (lookup? m k).getD d

/-- Python dict assignment d[k] = v: replace the first binding of the key if
present, otherwise append the new binding at the end. -/
def dictSet {α : Type} : List (String × α) → String → α → List (String × α)
  | [], k, v => [(k, v)]
  | p :: rest, k, v => if p.1 = k then (p.1, v) :: rest else p :: dictSet rest k v

/-- OPTIONS from app.py: the four answer options, strongest to weakest agreement. -/
def OPTIONS : List String := ["そうだ", "まあそうだ", "ややちがう", "ちがう"]

/-- SCORE_MAP from app.py: forward scoring table. -/
def SCORE_MAP : List (String × Nat) :=
  [("そうだ", 4), ("まあそうだ", 3), ("ややちがう", 2), ("ちがう", 1)]

/-- SCORE_MAP_REVERSE from app.py: scoring table for reverse-coded items. -/
def SCORE_MAP_REVERSE : List (String × Nat) :=
  [("そうだ", 1), ("まあそうだ", 2), ("ややちがう", 3), ("ちがう", 4)]

/-- STRESSOR_SCALES from app.py. -/
def STRESSOR_SCALES : List String :=
  ["量的負担", "質的負担", "裁量権", "仕事の適性", "職場人間関係", "職場環境"]

/-- REACTION_SCALES from app.py. -/
def REACTION_SCALES : List String :=
  ["活気", "イライラ感", "疲労感", "不安感", "抑うつ感", "身体愁訴"]

/-- SUPPORT_SCALES from app.py. -/
def SUPPORT_SCALES : List String :=
  ["上司のサポート", "同僚のサポート", "家族・友人のサポート"]

/-- Subheader written at the top of display_high_stress_warning. -/
def SUBHEADER_MSG : String := "総合的なストレスレベルの評価"

/-- Generic high-stress warning header (st.warning). -/
def WARN_HIGH : String := "高ストレス状態にある可能性が高いです。"

/-- Rationale line for the reaction-total rule. -/
def MSG_REACTION : String := "心身のストレス反応の合計点数が高いレベルにあります。"

/-- Rationale line for the stressor-plus-support rule. -/
def MSG_STRESSOR_SUPPORT : String :=
  "仕事のストレス要因と、周囲のサポートの状況から、高いストレス状態にある可能性が考えられます。"

/-- Normal-range message shown when neither rule fires. -/
def MSG_NORMAL : String := "現在のところ、総合的なストレスレベルは標準の範囲内と考えられます。"

/-- Closing informational note, always shown. -/
def MSG_INFO : String :=
  "この結果は、あくまで入力に基づく簡易的な評価です。気になる点があれば、専門家（医師、カウンセラーなど）にご相談ください。"

/-- Group total over a list of scale names, missing names contributing 0:
sum of scale_scores.get(s, 0) for s in names. -/
def sumScales (names : List String) (scale_scores : List (String × Int)) : Int :=
  (names.map (fun s => lookupD scale_scores s 0)).sum

/-- display_high_stress_warning from app.py, returning the final value of the
is_high_stress flag together with the ordered list of messages written to the
page (subheader, warning headers, rationale lines, normal-range note, closing
info note), following the control flow of the source statement by statement. -/
def display_high_stress_warning (scale_scores : List (String × Int)) : Bool × List String :=
  let msgs0 : List String := [SUBHEADER_MSG]
  let total_stressor := sumScales STRESSOR_SCALES scale_scores
  let total_reaction := sumScales REACTION_SCALES scale_scores
  let total_support := sumScales SUPPORT_SCALES scale_scores
  let st1 : Bool × List String :=
    if 77 ≤ total_reaction then (true, msgs0 ++ [WARN_HIGH, MSG_REACTION]) else (false, msgs0)
  let st2 : Bool × List String :=
    if 76 ≤ total_stressor ∧ 36 ≤ total_support then
      (true, st1.2 ++ (if st1.1 then [] else [WARN_HIGH]) ++ [MSG_STRESSOR_SUPPORT])
    else st1
  let st3 : Bool × List String :=
    if st2.1 then st2 else (st2.1, st2.2 ++ [MSG_NORMAL])
  (st3.1, st3.2 ++ [MSG_INFO])

theorem dhsw_eq (m : List (String × Int)) :
    display_high_stress_warning m =
      if 77 ≤ sumScales REACTION_SCALES m then
        if 76 ≤ sumScales STRESSOR_SCALES m ∧ 36 ≤ sumScales SUPPORT_SCALES m then
          (true, [SUBHEADER_MSG, WARN_HIGH, MSG_REACTION, MSG_STRESSOR_SUPPORT, MSG_INFO])
        else
          (true, [SUBHEADER_MSG, WARN_HIGH, MSG_REACTION, MSG_INFO])
      else
        if 76 ≤ sumScales STRESSOR_SCALES m ∧ 36 ≤ sumScales SUPPORT_SCALES m then
          (true, [SUBHEADER_MSG, WARN_HIGH, MSG_STRESSOR_SUPPORT, MSG_INFO])
        else
          (false, [SUBHEADER_MSG, MSG_NORMAL, MSG_INFO]) := by
  by_cases h1 : 77 ≤ sumScales REACTION_SCALES m <;>
    by_cases h2 : 76 ≤ sumScales STRESSOR_SCALES m ∧ 36 ≤ sumScales SUPPORT_SCALES m <;>
    simp [display_high_stress_warning, h1, h2]

/-- Claim C1: the high-stress determination is true exactly when the reaction
group total is at least 77, or the stressor group total is at least 76 and the
support group total is at least 36; and each rationale line is emitted exactly
when its rule fires. -/
theorem claim_c1 (m : List (String × Int)) :
    ((display_high_stress_warning m).1 = true ↔
      (77 ≤ sumScales REACTION_SCALES m ∨
        (76 ≤ sumScales STRESSOR_SCALES m ∧ 36 ≤ sumScales SUPPORT_SCALES m))) ∧
    (MSG_REACTION ∈ (display_high_stress_warning m).2 ↔
      77 ≤ sumScales REACTION_SCALES m) ∧
    (MSG_STRESSOR_SUPPORT ∈ (display_high_stress_warning m).2 ↔
      (76 ≤ sumScales STRESSOR_SCALES m ∧ 36 ≤ sumScales SUPPORT_SCALES m)) := by
  rw [dhsw_eq]
  by_cases h1 : 77 ≤ sumScales REACTION_SCALES m <;>
    by_cases h2 : 76 ≤ sumScales STRESSOR_SCALES m ∧ 36 ≤ sumScales SUPPORT_SCALES m <;>
    simp [h1, h2] <;>
    decide

theorem lookup?_dictSet {α : Type} (m : List (String × α)) (s k : String) (v : α) :
    lookup? (dictSet m s v) k = if k = s then some v else lookup? m k := by
  induction m with
  | nil =>
    by_cases h : k = s
    · simp [dictSet, lookup?, h]
    · have h' : ¬ (s = k) := fun hh => h hh.symm
      simp [dictSet, lookup?, h, h']
  | cons p rest ih =>
    by_cases hp : p.1 = s <;> by_cases hk : k = s
    · subst hk
      simp [dictSet, lookup?, hp]
    · have hsk : ¬ (s = k) := fun hh => hk hh.symm
      simp [dictSet, lookup?, hp, hk, hsk]
    · subst hk
      have h' : ¬ (p.1 = k) := hp
      simp [dictSet, lookup?, hp, h', ih]
    · simp [dictSet, lookup?, hp, hk, ih]

theorem lookupD_dictSet (m : List (String × Int)) (s k : String) (v : Int) :
    lookupD (dictSet m s v) k 0 = if k = s then v else lookupD m k 0 := by
  unfold lookupD
  rw [lookup?_dictSet]
  by_cases h : k = s <;> simp [h]

theorem sumScales_mono (names : List String) (m m' : List (String × Int))
    (h : ∀ n ∈ names, lookupD m n 0 ≤ lookupD m' n 0) :
    sumScales names m ≤ sumScales names m' := by
  induction names with
  | nil => simp [sumScales]
  | cons n rest ih =>
    have h1 := h n (List.mem_cons_self n rest)
    have h2 : sumScales rest m ≤ sumScales rest m' :=
      ih (fun x hx => h x (List.mem_cons_of_mem n hx))
    simp only [sumScales, List.map_cons, List.sum_cons]
    exact add_le_add h1 h2

theorem sumScales_congr (names : List String) (m m' : List (String × Int))
    (h : ∀ n ∈ names, lookupD m n 0 = lookupD m' n 0) :
    sumScales names m = sumScales names m' := by
  induction names with
  | nil => simp [sumScales]
  | cons n rest ih =>
    have h1 := h n (List.mem_cons_self n rest)
    have h2 : sumScales rest m = sumScales rest m' :=
      ih (fun x hx => h x (List.mem_cons_of_mem n hx))
    show lookupD m n 0 + sumScales rest m = lookupD m' n 0 + sumScales rest m'
    rw [h1, h2]

theorem dhsw_fst (m : List (String × Int)) :
    (display_high_stress_warning m).1 = true ↔
      (77 ≤ sumScales REACTION_SCALES m ∨
        (76 ≤ sumScales STRESSOR_SCALES m ∧ 36 ≤ sumScales SUPPORT_SCALES m)) := by
  rw [dhsw_eq]
  by_cases h1 : 77 ≤ sumScales REACTION_SCALES m <;>
    by_cases h2 : 76 ≤ sumScales STRESSOR_SCALES m ∧ 36 ≤ sumScales SUPPORT_SCALES m <;>
    simp [h1, h2]

/-- Claim C7: if the classification of a scale-scores mapping is high-stress,
then raising any one reaction-group scale score, leaving every other scale
untouched, still classifies as high-stress. -/
theorem claim_c7 (m : List (String × Int)) (s : String) (v : Int)
    (hs : s ∈ REACTION_SCALES) (hv : lookupD m s 0 ≤ v)
    (hhigh : (display_high_stress_warning m).1 = true) :
    (display_high_stress_warning (dictSet m s v)).1 = true := by
  have hreac : sumScales REACTION_SCALES m ≤ sumScales REACTION_SCALES (dictSet m s v) := by
    apply sumScales_mono
    intro n hn
    rw [lookupD_dictSet]
    by_cases hns : n = s
    · subst hns; simp only [if_pos rfl]; exact hv
    · simp [hns]
  have hdisj1 : ∀ x ∈ REACTION_SCALES, ∀ n ∈ STRESSOR_SCALES, ¬ (n = x) := by decide
  have hdisj2 : ∀ x ∈ REACTION_SCALES, ∀ n ∈ SUPPORT_SCALES, ¬ (n = x) := by decide
  have hstr : sumScales STRESSOR_SCALES (dictSet m s v) = sumScales STRESSOR_SCALES m := by
    apply sumScales_congr
    intro n hn
    rw [lookupD_dictSet, if_neg (hdisj1 s hs n hn)]
  have hsup : sumScales SUPPORT_SCALES (dictSet m s v) = sumScales SUPPORT_SCALES m := by
    apply sumScales_congr
    intro n hn
    rw [lookupD_dictSet, if_neg (hdisj2 s hs n hn)]
  rw [dhsw_fst] at hhigh ⊢
  rcases hhigh with h | ⟨ha, hb⟩
  · exact Or.inl (le_trans h hreac)
  · exact Or.inr ⟨hstr ▸ ha, hsup ▸ hb⟩

theorem claim_c7_witness :
    (display_high_stress_warning (dictSet [("活気", (77 : Int))] "活気" 100)).1 = true :=
  claim_c7 [("活気", 77)] "活気" 100 (by decide) (by decide) (by decide)

/-- Claim C8: when both threshold rules fire, the emitted messages contain both
rationale lines and the generic high-stress warning header exactly once. -/
theorem claim_c8 (m : List (String × Int))
    (h1 : 77 ≤ sumScales REACTION_SCALES m)
    (h2 : 76 ≤ sumScales STRESSOR_SCALES m)
    (h3 : 36 ≤ sumScales SUPPORT_SCALES m) :
    MSG_REACTION ∈ (display_high_stress_warning m).2 ∧
    MSG_STRESSOR_SUPPORT ∈ (display_high_stress_warning m).2 ∧
    (display_high_stress_warning m).2.count WARN_HIGH = 1 := by
  rw [dhsw_eq, if_pos h1, if_pos (And.intro h2 h3)]
  decide

theorem claim_c8_witness :
    MSG_REACTION ∈ (display_high_stress_warning
        [("活気", (77 : Int)), ("量的負担", 76), ("上司のサポート", 36)]).2 ∧
    MSG_STRESSOR_SUPPORT ∈ (display_high_stress_warning
        [("活気", (77 : Int)), ("量的負担", 76), ("上司のサポート", 36)]).2 ∧
    (display_high_stress_warning
        [("活気", (77 : Int)), ("量的負担", 76), ("上司のサポート", 36)]).2.count WARN_HIGH = 1 :=
  claim_c8 [("活気", 77), ("量的負担", 76), ("上司のサポート", 36)]
    (by decide) (by decide) (by decide)

/-- One row of the loaded questions catalog: an item with identifier, display
text and reverse-coding flag. -/
structure Question where
  id : String
  text : String
  reverse : Bool
deriving DecidableEq

/-- The loop body of calculate_scores from app.py, one catalog item at a time,
threading the scores dict. A missing answer, or an empty string answer (falsy
in Python), skips the item; an answer with no entry in the selected score
table is the KeyError case, embedded as none. -/
def calcScoresAux (answers : List (String × String)) :
    List Question → List (String × Nat) → Option (List (String × Nat))
  | [], scores => some scores
  | q :: rest, scores =>
    match lookup? answers q.id with
    | none => calcScoresAux answers rest scores
    | some answer =>
      if answer = "" then calcScoresAux answers rest scores
      else
        match (if q.reverse then lookup? SCORE_MAP_REVERSE answer
               else lookup? SCORE_MAP answer) with
        | some v => calcScoresAux answers rest (dictSet scores q.id v)
        | none => none

/-- calculate_scores from app.py. The catalog questions_data is read at
startup from questions.csv, a data file that is not among the source files,
so the catalog is passed explicitly. -/
def calculate_scores (questions_data : List Question) (answers : List (String × String)) :
    Option (List (String × Nat)) :=
  calcScoresAux answers questions_data []

/-- scales from data.py: the 18 scale definitions, in source order. -/
def scales : List (String × List String) :=
  [("量的負担", ["A1", "A2", "A3"]),
   ("質的負担", ["A4", "A5", "A6", "A7"]),
   ("裁量権", ["A8", "A9", "A10"]),
   ("仕事の適性", ["A11", "A16"]),
   ("職場人間関係", ["A12", "A13", "A14"]),
   ("職場環境", ["A15"]),
   ("働きがい", ["A17"]),
   ("活気", ["B1", "B2", "B3"]),
   ("イライラ感", ["B4", "B5", "B6"]),
   ("疲労感", ["B7", "B8", "B9"]),
   ("不安感", ["B10", "B11", "B12"]),
   ("抑うつ感", ["B13", "B14", "B15", "B16", "B17", "B18"]),
   ("身体愁訴", ["B19", "B20", "B21", "B22", "B23", "B24", "B25", "B26", "B27", "B28", "B29"]),
   ("上司のサポート", ["C1", "C4", "C7"]),
   ("同僚のサポート", ["C2", "C5", "C8"]),
   ("家族・友人のサポート", ["C3", "C6", "C9"]),
   ("仕事満足度", ["D1"]),
   ("家庭満足度", ["D2"])]

/-- calculate_scale_scores from app.py: builds the scale_scores dict in the
iteration order of scales, each value the sum of scores.get(qid, 0) over the
item ids of the scale. -/
def calculate_scale_scores (scores : List (String × Nat)) : List (String × Nat) :=
  scales.foldl
    (fun acc p => dictSet acc p.1 ((p.2.map (fun qid => lookupD scores qid 0)).sum)) []

theorem dictSet_of_not_mem_keys {α : Type} (m : List (String × α)) (k : String) (v : α)
    (h : ¬ k ∈ m.map Prod.fst) : dictSet m k v = m ++ [(k, v)] := by
  induction m with
  | nil => rfl
  | cons p rest ih =>
    simp only [List.map_cons, List.mem_cons, not_or] at h
    have hp : ¬ (p.1 = k) := fun hh => h.1 hh.symm
    rw [dictSet, if_neg hp, ih h.2]
    rfl

theorem foldl_dictSet_fresh (f : String × List String → Nat) (L : List (String × List String))
    (acc : List (String × Nat))
    (hfresh : ∀ p ∈ L, ¬ p.1 ∈ acc.map Prod.fst)
    (hnd : (L.map Prod.fst).Nodup) :
    L.foldl (fun a p => dictSet a p.1 (f p)) acc = acc ++ L.map (fun p => (p.1, f p)) := by
  induction L generalizing acc with
  | nil => simp
  | cons p rest ih =>
    rw [List.foldl_cons, dictSet_of_not_mem_keys acc p.1 (f p) (hfresh p (List.mem_cons_self p rest))]
    rw [List.map_cons, List.nodup_cons] at hnd
    rw [ih (acc ++ [(p.1, f p)]) ?_ hnd.2]
    · simp
    · intro q hq
      simp only [List.map_append, List.mem_append, not_or]
      refine ⟨fun hqa => hfresh q (List.mem_cons_of_mem p hq) hqa, ?_⟩
      simp only [List.map_cons, List.map_nil, List.mem_singleton]
      intro hq1
      exact hnd.1 (hq1 ▸ List.mem_map_of_mem Prod.fst hq)

theorem calculate_scale_scores_eq (scores : List (String × Nat)) :
    calculate_scale_scores scores
      = scales.map (fun p => (p.1, (p.2.map (fun qid => lookupD scores qid 0)).sum)) := by
  have h := foldl_dictSet_fresh (fun p => (p.2.map (fun qid => lookupD scores qid 0)).sum)
    scales [] (by simp) (by decide)
  simpa [calculate_scale_scores] using h

theorem calculate_scale_scores_keys (scores : List (String × Nat)) :
    (calculate_scale_scores scores).map Prod.fst = scales.map Prod.fst := by
  rw [calculate_scale_scores_eq, List.map_map]
  rfl

/-- Claim C3: for every item_scores mapping, calculate_scale_scores returns
exactly the 18 defined scale names as keys, in the insertion order of the
scales table, each value being the sum of the item scores of the item ids of
the scale, missing item ids contributing 0. -/
theorem claim_c3 (scores : List (String × Nat)) :
    calculate_scale_scores scores
        = scales.map (fun p => (p.1, (p.2.map (fun qid => lookupD scores qid 0)).sum)) ∧
    (calculate_scale_scores scores).map Prod.fst = scales.map Prod.fst ∧
    scales.length = 18 :=
  ⟨calculate_scale_scores_eq scores, calculate_scale_scores_keys scores, rfl⟩

theorem mem_of_lookup?_eq_some {α : Type} (m : List (String × α)) (k : String) (v : α)
    (h : lookup? m k = some v) : (k, v) ∈ m := by
  induction m with
  | nil => simp [lookup?] at h
  | cons p rest ih =>
    rw [lookup?] at h
    by_cases hp : p.1 = k
    · rw [if_pos hp] at h
      obtain ⟨pk, pv⟩ := p
      cases h
      simp only at hp
      subst hp
      exact List.mem_cons_self _ _
    · rw [if_neg hp] at h
      exact List.mem_cons_of_mem p (ih h)

theorem score_tables_defined (a : String) (ha : a ∈ OPTIONS) :
    (lookup? SCORE_MAP a).isSome = true ∧ (lookup? SCORE_MAP_REVERSE a).isSome = true := by
  simp only [OPTIONS, List.mem_cons, List.not_mem_nil, or_false] at ha
  rcases ha with rfl | rfl | rfl | rfl <;> exact ⟨rfl, rfl⟩

theorem score_tables_none (a : String) (ha : ¬ a ∈ OPTIONS) :
    lookup? SCORE_MAP a = none ∧ lookup? SCORE_MAP_REVERSE a = none := by
  simp only [OPTIONS, List.mem_cons, List.not_mem_nil, or_false, not_or] at ha
  obtain ⟨h1, h2, h3, h4⟩ := ha
  constructor <;>
    simp [SCORE_MAP, SCORE_MAP_REVERSE, lookup?, Ne.symm h1, Ne.symm h2, Ne.symm h3, Ne.symm h4]

theorem score_tables_at (i : Nat) (hi : i < 4) :
    lookup? SCORE_MAP (OPTIONS.get ⟨i, hi⟩) = some (4 - i) ∧
    lookup? SCORE_MAP_REVERSE (OPTIONS.get ⟨i, hi⟩) = some (i + 1) := by
  interval_cases i <;> exact ⟨rfl, rfl⟩

theorem OPTIONS_get_ne_empty (i : Nat) (hi : i < 4) :
    ¬ (OPTIONS.get ⟨i, hi⟩ = "") := by
  have hall : ∀ a ∈ OPTIONS, ¬ (a = "") := by decide
  exact hall _ (List.get_mem OPTIONS i hi)

theorem calcScoresAux_append (answers : List (String × String)) (l1 l2 : List Question)
    (init : List (String × Nat)) :
    calcScoresAux answers (l1 ++ l2) init =
      (calcScoresAux answers l1 init).bind (fun mid => calcScoresAux answers l2 mid) := by
  induction l1 generalizing init with
  | nil => simp [calcScoresAux]
  | cons q rest ih =>
    cases hl : lookup? answers q.id with
    | none => simp [calcScoresAux, hl, ih]
    | some a =>
      by_cases ha : a = ""
      · simp [calcScoresAux, hl, ha, ih]
      · cases hm : (if q.reverse then lookup? SCORE_MAP_REVERSE a else lookup? SCORE_MAP a) with
        | none => simp [calcScoresAux, hl, ha, hm]
        | some v => simp [calcScoresAux, hl, ha, hm, ih]

theorem calcScoresAux_lookup_of_not_id (answers : List (String × String)) (qd : List Question)
    (k : String) (hk : ∀ q ∈ qd, ¬ (q.id = k)) (init res : List (String × Nat))
    (h : calcScoresAux answers qd init = some res) :
    lookup? res k = lookup? init k := by
  induction qd generalizing init with
  | nil =>
    simp only [calcScoresAux, Option.some_inj] at h
    rw [h]
  | cons q rest ih =>
    have hq : ¬ (q.id = k) := hk q (List.mem_cons_self q rest)
    have hk' : ∀ x ∈ rest, ¬ (x.id = k) := fun x hx => hk x (List.mem_cons_of_mem q hx)
    cases hl : lookup? answers q.id with
    | none =>
      simp only [calcScoresAux, hl] at h
      exact ih hk' init h
    | some a =>
      by_cases ha : a = ""
      · simp only [calcScoresAux, hl, if_pos ha] at h
        exact ih hk' init h
      · cases hm : (if q.reverse then lookup? SCORE_MAP_REVERSE a else lookup? SCORE_MAP a) with
        | none =>
          simp only [calcScoresAux, hl, if_neg ha, hm] at h
          exact Option.noConfusion h
        | some v =>
          simp only [calcScoresAux, hl, if_neg ha, hm] at h
          rw [ih hk' (dictSet init q.id v) h, lookup?_dictSet,
            if_neg (fun hh => hq hh.symm)]

theorem calcScoresAux_lookup_of_no_answer (answers : List (String × String))
    (qd : List Question) (k : String) (hk : lookup? answers k = none)
    (init res : List (String × Nat)) (h : calcScoresAux answers qd init = some res) :
    lookup? res k = lookup? init k := by
  induction qd generalizing init with
  | nil =>
    simp only [calcScoresAux, Option.some_inj] at h
    rw [h]
  | cons q rest ih =>
    by_cases hq : q.id = k
    · simp only [calcScoresAux, hq, hk] at h
      exact ih init h
    · cases hl : lookup? answers q.id with
      | none =>
        simp only [calcScoresAux, hl] at h
        exact ih init h
      | some a =>
        by_cases ha : a = ""
        · simp only [calcScoresAux, hl, if_pos ha] at h
          exact ih init h
        · cases hm : (if q.reverse then lookup? SCORE_MAP_REVERSE a else lookup? SCORE_MAP a) with
          | none =>
            simp only [calcScoresAux, hl, if_neg ha, hm] at h
            exact Option.noConfusion h
          | some v =>
            simp only [calcScoresAux, hl, if_neg ha, hm] at h
            rw [ih (dictSet init q.id v) h, lookup?_dictSet,
              if_neg (fun hh => hq hh.symm)]

/-- Claim C2: in any catalog with unique item ids, an item answered with the
option at position i of OPTIONS (ordered strongest to weakest agreement)
receives item score 4 - i when its reverse flag is false and i + 1 when the
flag is true: forward items score 4,3,2,1 and reverse items score 1,2,3,4 over
the four options in order. -/
theorem claim_c2 (qd : List Question) (answers : List (String × String)) (q : Question)
    (i : Nat) (hi : i < 4) (res : List (String × Nat))
    (hq : q ∈ qd) (hnd : (qd.map Question.id).Nodup)
    (ha : lookup? answers q.id = some (OPTIONS.get ⟨i, hi⟩))
    (hres : calculate_scores qd answers = some res) :
    lookup? res q.id = some (if q.reverse then i + 1 else 4 - i) := by
  obtain ⟨l1, l2, rfl⟩ := List.append_of_mem hq
  rw [List.map_append, List.map_cons] at hnd
  have hnot : ¬ q.id ∈ l2.map Question.id :=
    (List.nodup_cons.mp hnd.of_append_right).1
  have hids : ∀ x ∈ l2, ¬ (x.id = q.id) :=
    fun x hx hxx => hnot (hxx ▸ List.mem_map_of_mem Question.id hx)
  unfold calculate_scores at hres
  rw [calcScoresAux_append] at hres
  cases h1 : calcScoresAux answers l1 [] with
  | none =>
    rw [h1] at hres
    exact Option.noConfusion hres
  | some m1 =>
    rw [h1] at hres
    replace hres : calcScoresAux answers (q :: l2) m1 = some res := hres
    have hne := OPTIONS_get_ne_empty i hi
    cases hrev : q.reverse with
    | false =>
      simp only [calcScoresAux, ha, if_neg hne, hrev, Bool.false_eq_true, if_false,
        (score_tables_at i hi).1] at hres
      rw [calcScoresAux_lookup_of_not_id answers l2 q.id hids _ res hres,
        lookup?_dictSet, if_pos rfl]
      simp
    | true =>
      simp only [calcScoresAux, ha, if_neg hne, hrev, if_true,
        (score_tables_at i hi).2] at hres
      rw [calcScoresAux_lookup_of_not_id answers l2 q.id hids _ res hres,
        lookup?_dictSet, if_pos rfl]
      simp

theorem claim_c2_witness :
    lookup? [("A1", (4 : Nat))] "A1" = some 4 :=
  claim_c2 [⟨"A1", "q1", false⟩] [("A1", "そうだ")] ⟨"A1", "q1", false⟩ 0 (by decide)
    [("A1", 4)] (by decide) (by decide) rfl rfl

theorem calcScoresAux_invalid (answers : List (String × String)) (qd : List Question)
    (q : Question) (a : String) (hq : q ∈ qd) (ha : lookup? answers q.id = some a)
    (hne : ¬ (a = "")) (hout : ¬ a ∈ OPTIONS) :
    ∀ init, calcScoresAux answers qd init = none := by
  induction qd with
  | nil => cases hq
  | cons x rest ih =>
    intro init
    rcases List.mem_cons.mp hq with rfl | hq2
    · cases hrev : q.reverse with
      | false => simp [calcScoresAux, ha, hne, hrev, (score_tables_none a hout).1]
      | true => simp [calcScoresAux, ha, hne, hrev, (score_tables_none a hout).2]
    · cases hl : lookup? answers x.id with
      | none =>
        simp only [calcScoresAux, hl]
        exact ih hq2 init
      | some b =>
        by_cases hb : b = ""
        · simp only [calcScoresAux, hl, if_pos hb]
          exact ih hq2 init
        · cases hm : (if x.reverse then lookup? SCORE_MAP_REVERSE b else lookup? SCORE_MAP b) with
          | none => simp only [calcScoresAux, hl, if_neg hb, hm]
          | some v =>
            simp only [calcScoresAux, hl, if_neg hb, hm]
            exact ih hq2 (dictSet init x.id v)

theorem calcScoresAux_total (answers : List (String × String))
    (h : ∀ p ∈ answers, p.2 = "" ∨ p.2 ∈ OPTIONS) (qd : List Question) :
    ∀ init, ∃ res, calcScoresAux answers qd init = some res := by
  induction qd with
  | nil => exact fun init => ⟨init, rfl⟩
  | cons q rest ih =>
    intro init
    cases hl : lookup? answers q.id with
    | none =>
      simp only [calcScoresAux, hl]
      exact ih init
    | some a =>
      by_cases ha : a = ""
      · simp only [calcScoresAux, hl, if_pos ha]
        exact ih init
      · have haopt : a ∈ OPTIONS := by
          rcases h (q.id, a) (mem_of_lookup?_eq_some answers q.id a hl) with h1 | h1
          · exact absurd h1 ha
          · exact h1
        cases hrev : q.reverse with
        | false =>
          cases hm : lookup? SCORE_MAP a with
          | none =>
            have hd := (score_tables_defined a haopt).1
            rw [hm] at hd
            exact absurd hd (by simp)
          | some v =>
            simp [calcScoresAux, hl, ha, hrev, hm]
            exact ih (dictSet init q.id v)
        | true =>
          cases hm : lookup? SCORE_MAP_REVERSE a with
          | none =>
            have hd := (score_tables_defined a haopt).2
            rw [hm] at hd
            exact absurd hd (by simp)
          | some v =>
            simp [calcScoresAux, hl, ha, hrev, hm]
            exact ih (dictSet init q.id v)

theorem claim_c4_counterexample :
    calculate_scores [⟨"A1", "q1", false⟩] [("A1", "invalid")] = none ∧
    ¬ ("invalid" ∈ OPTIONS) :=
  ⟨rfl, by decide⟩

theorem calcScoresAux_lookup_of_empty_answer (answers : List (String × String))
    (qd : List Question) (k : String) (hk : lookup? answers k = some "")
    (init res : List (String × Nat)) (h : calcScoresAux answers qd init = some res) :
    lookup? res k = lookup? init k := by
  induction qd generalizing init with
  | nil =>
    simp only [calcScoresAux, Option.some_inj] at h
    rw [h]
  | cons q rest ih =>
    by_cases hq : q.id = k
    · simp [calcScoresAux, hq, hk] at h
      exact ih init h
    · cases hl : lookup? answers q.id with
      | none =>
        simp only [calcScoresAux, hl] at h
        exact ih init h
      | some a =>
        by_cases ha : a = ""
        · simp only [calcScoresAux, hl, if_pos ha] at h
          exact ih init h
        · cases hm : (if q.reverse then lookup? SCORE_MAP_REVERSE a else lookup? SCORE_MAP a) with
          | none =>
            simp only [calcScoresAux, hl, if_neg ha, hm] at h
            exact Option.noConfusion h
          | some v =>
            simp only [calcScoresAux, hl, if_neg ha, hm] at h
            rw [ih (dictSet init q.id v) h, lookup?_dictSet,
              if_neg (fun hh => hq hh.symm)]

/-- Claim C4, amended: an answer value outside the four-option vocabulary is
treated as no answer only when it is falsy, that is the empty string: then the
item is omitted from any item-scores mapping the Scorer returns, and the empty
value never makes the Scorer raise (when every answer value is empty or in the
vocabulary, a mapping is returned). A non-empty out-of-vocabulary answer for a
catalog item instead hits a KeyError in the score table (embedded as none), so
no item-scores mapping is returned at all. -/
theorem claim_c4 (qd : List Question) (answers : List (String × String))
    (q : Question) (a : String) (hq : q ∈ qd) (ha : lookup? answers q.id = some a)
    (hout : ¬ a ∈ OPTIONS) :
    (a = "" →
      (∀ res, calculate_scores qd answers = some res → lookup? res q.id = none) ∧
      ((∀ p ∈ answers, p.2 = "" ∨ p.2 ∈ OPTIONS) →
        ∃ res, calculate_scores qd answers = some res)) ∧
    (¬ (a = "") → calculate_scores qd answers = none) := by
  constructor
  · intro hae
    subst hae
    constructor
    · intro res hres
      rw [calcScoresAux_lookup_of_empty_answer answers qd q.id ha [] res hres]
      rfl
    · intro hall
      exact calcScoresAux_total answers hall qd []
  · intro hne
    exact calcScoresAux_invalid answers qd q a hq ha hne hout []

theorem claim_c4_witness :
    ((("" : String) = "" →
      (∀ res, calculate_scores [⟨"A1", "q1", false⟩] [("A1", "")] = some res →
        lookup? res "A1" = none) ∧
      ((∀ p ∈ [("A1", "")], p.2 = "" ∨ p.2 ∈ OPTIONS) →
        ∃ res, calculate_scores [⟨"A1", "q1", false⟩] [("A1", "")] = some res)) ∧
    (¬ (("" : String) = "") → calculate_scores [⟨"A1", "q1", false⟩] [("A1", "")] = none)) :=
  claim_c4 [⟨"A1", "q1", false⟩] [("A1", "")] ⟨"A1", "q1", false⟩ ""
    (by decide) rfl (by decide)


/-- Claim C6: when every supplied answer is one of the four options, the
Scorer never errors however incomplete the answer set is: it returns an
item-scores mapping omitting every unanswered item, while
calculate_scale_scores always defines a score for each of the 18 scales,
missing item scores contributing 0. -/
theorem claim_c6 (qd : List Question) (answers : List (String × String))
    (h : ∀ p ∈ answers, p.2 ∈ OPTIONS) :
    (∃ res, calculate_scores qd answers = some res ∧
      ∀ k, lookup? answers k = none → lookup? res k = none) ∧
    (∀ scores : List (String × Nat),
      (calculate_scale_scores scores).map Prod.fst = scales.map Prod.fst) := by
  constructor
  · obtain ⟨res, hres⟩ := calcScoresAux_total answers (fun p hp => Or.inr (h p hp)) qd []
    refine ⟨res, hres, fun k hk => ?_⟩
    rw [calcScoresAux_lookup_of_no_answer answers qd k hk [] res hres]
    rfl
  · exact calculate_scale_scores_keys

theorem claim_c6_witness :
    (∃ res, calculate_scores [⟨"A1", "q1", false⟩, ⟨"A2", "q2", true⟩]
        [("A1", "そうだ")] = some res ∧
      ∀ k, lookup? [("A1", "そうだ")] k = none → lookup? res k = none) ∧
    (∀ scores : List (String × Nat),
      (calculate_scale_scores scores).map Prod.fst = scales.map Prod.fst) :=
  claim_c6 [⟨"A1", "q1", false⟩, ⟨"A2", "q2", true⟩] [("A1", "そうだ")] (by decide)

theorem dictSet_keys {α : Type} (m : List (String × α)) (k : String) (v : α) (x : String)
    (hx : x ∈ (dictSet m k v).map Prod.fst) : x ∈ m.map Prod.fst ∨ x = k := by
  induction m with
  | nil =>
    simp only [dictSet, List.map_cons, List.map_nil, List.mem_singleton] at hx
    exact Or.inr hx
  | cons p rest ih =>
    by_cases hp : p.1 = k
    · rw [dictSet, if_pos hp] at hx
      simp only [List.map_cons, List.mem_cons] at hx ⊢
      rcases hx with h | h
      · exact Or.inl (Or.inl h)
      · exact Or.inl (Or.inr h)
    · rw [dictSet, if_neg hp] at hx
      simp only [List.map_cons, List.mem_cons] at hx ⊢
      rcases hx with h | h
      · exact Or.inl (Or.inl h)
      · rcases ih h with h1 | h1
        · exact Or.inl (Or.inr h1)
        · exact Or.inr h1

theorem calcScoresAux_keys (answers : List (String × String)) (qd : List Question)
    (init res : List (String × Nat)) (h : calcScoresAux answers qd init = some res) :
    ∀ p ∈ res, p.1 ∈ init.map Prod.fst ∨ p.1 ∈ qd.map Question.id := by
  induction qd generalizing init with
  | nil =>
    simp only [calcScoresAux, Option.some_inj] at h
    subst h
    exact fun p hp => Or.inl (List.mem_map_of_mem Prod.fst hp)
  | cons q rest ih =>
    intro p hp
    cases hl : lookup? answers q.id with
    | none =>
      simp only [calcScoresAux, hl] at h
      rcases ih init h p hp with h1 | h1
      · exact Or.inl h1
      · exact Or.inr (List.mem_cons_of_mem _ h1)
    | some a =>
      by_cases ha : a = ""
      · simp only [calcScoresAux, hl, if_pos ha] at h
        rcases ih init h p hp with h1 | h1
        · exact Or.inl h1
        · exact Or.inr (List.mem_cons_of_mem _ h1)
      · cases hm : (if q.reverse then lookup? SCORE_MAP_REVERSE a else lookup? SCORE_MAP a) with
        | none =>
          simp only [calcScoresAux, hl, if_neg ha, hm] at h
          exact Option.noConfusion h
        | some v =>
          simp only [calcScoresAux, hl, if_neg ha, hm] at h
          rcases ih (dictSet init q.id v) h p hp with h1 | h1
          · rcases dictSet_keys init q.id v p.1 h1 with h2 | h2
            · exact Or.inl h2
            · exact Or.inr (h2 ▸ List.mem_cons_self q.id (rest.map Question.id))
          · exact Or.inr (List.mem_cons_of_mem _ h1)

/-- Claim C10: every key of an item-scores mapping returned by the Scorer is
the id of some catalog item; answer entries whose keys are not catalog item
ids are ignored and never appear in the result. -/
theorem claim_c10 (qd : List Question) (answers : List (String × String))
    (res : List (String × Nat)) (h : calculate_scores qd answers = some res) :
    (∀ p ∈ res, p.1 ∈ qd.map Question.id) ∧
    (∀ k, ¬ (k ∈ qd.map Question.id) → lookup? res k = none) := by
  have hkeys := calcScoresAux_keys answers qd [] res h
  constructor
  · intro p hp
    rcases hkeys p hp with h1 | h1
    · simp at h1
    · exact h1
  · intro k hk
    cases hl : lookup? res k with
    | none => rfl
    | some v =>
      have hmem := mem_of_lookup?_eq_some res k v hl
      rcases hkeys (k, v) hmem with h1 | h1
      · simp at h1
      · exact absurd h1 hk

theorem claim_c10_witness :
    (∀ p ∈ [("A1", (4 : Nat))], p.1 ∈ [(⟨"A1", "q1", false⟩ : Question)].map Question.id) ∧
    (∀ k, ¬ (k ∈ [(⟨"A1", "q1", false⟩ : Question)].map Question.id) →
      lookup? [("A1", (4 : Nat))] k = none) :=
  claim_c10 [⟨"A1", "q1", false⟩] [("A1", "そうだ"), ("ZZ", "そうだ")] [("A1", 4)] rfl


/-- One raw row of questions.csv as handed to the loader: the id, text and
reverse columns, the reverse cell still a string. -/
structure Row where
  id : String
  text : String
  reverse : String
deriving DecidableEq

/-- Outcome of the pandas read_csv call in load_questions_from_csv, abstracted:
the file is read successfully into rows, or raising FileNotFoundError, or
raising some other exception (for instance PermissionError for an unreadable
file, which the except clause of the source does not catch). -/
inductive ReadResult where
  | ok (rows : List Row)
  | fileNotFound
  | otherError (msg : String)

/-- Python str.strip with no argument: remove leading and trailing whitespace,
character-list implementation. -/
def pyStrip (s : String) : String :=
  ⟨((s.data.dropWhile Char.isWhitespace).reverse.dropWhile Char.isWhitespace).reverse⟩

/-- Python str.lower: lower-case every character, character-list
implementation. -/
def pyLower (s : String) : String :=
  ⟨s.data.map Char.toLower⟩

/-- load_questions_from_csv from data.py: on a successful read, each row
becomes an item whose reverse flag is the Python test
str(x).strip().lower() == "true"; FileNotFoundError is caught and yields the
empty list; any other exception propagates (embedded as Except.error). -/
def load_questions_from_csv : ReadResult → Except String (List Question)
  | ReadResult.ok rows =>
      Except.ok (rows.map (fun r => ⟨r.id, r.text, pyLower (pyStrip r.reverse) == "true"⟩))
  | ReadResult.fileNotFound => Except.ok []
  | ReadResult.otherError msg => Except.error msg

theorem claim_c5_counterexample :
    load_questions_from_csv (ReadResult.otherError "PermissionError")
      = Except.error "PermissionError" := rfl

/-- Claim C5, amended: only a missing catalog file (FileNotFoundError) makes
the loader return the empty catalog without raising; any other read failure,
such as an unreadable file, propagates out of the loader as an exception. -/
theorem claim_c5 :
    load_questions_from_csv ReadResult.fileNotFound = Except.ok [] ∧
    ∀ e, load_questions_from_csv (ReadResult.otherError e) = Except.error e :=
  ⟨rfl, fun _ => rfl⟩

theorem claim_c9_counterexample :
    load_questions_from_csv (ReadResult.ok [⟨"A1", "text", " true "⟩])
      = Except.ok [⟨"A1", "text", true⟩] ∧
    ¬ (pyLower " true " = "true") :=
  ⟨rfl, by decide⟩

/-- Claim C9, amended: the loaded reverse flag is true exactly when the
reverse cell, first stripped of surrounding whitespace, compared
case-insensitively equals the literal true; empty, false and 0 still yield
false, but a padded cell such as a true surrounded by spaces also yields
true, which plain case-insensitive comparison of the raw cell would not. -/
theorem claim_c9 (rows : List Row) (res : List Question) (i : Nat) (r : Row) (q : Question)
    (h : load_questions_from_csv (ReadResult.ok rows) = Except.ok res)
    (hr : rows[i]? = some r) (hq : res[i]? = some q) :
    (q.reverse = true ↔ pyLower (pyStrip r.reverse) = "true") := by
  simp only [load_questions_from_csv, Except.ok.injEq] at h
  subst h
  rw [List.getElem?_map, hr] at hq
  replace hq : some (Question.mk r.id r.text (pyLower (pyStrip r.reverse) == "true")) = some q := hq
  cases hq
  simp only
  exact beq_iff_eq

theorem claim_c9_witness :
    ((⟨"A1", "text", true⟩ : Question).reverse = true ↔ pyLower (pyStrip "TRUE") = "true") :=
  claim_c9 [⟨"A1", "text", "TRUE"⟩] [⟨"A1", "text", true⟩] 0 ⟨"A1", "text", "TRUE"⟩
    ⟨"A1", "text", true⟩ rfl rfl rfl
